import Mathlib

/-
Verification of the tinysemver version-bump engine (tinysemver/tinysemver.py).

Strings are modelled as lists of characters.  The Python `re` engine is
modelled abstractly: a compiled pattern is represented by its number of
capturing groups together with the list of matches that `re.finditer`
produces on a given text.  A match is a record of its full span, the span
of capturing group 1, and the `pos` attribute of the match object (the
position at which the scan that produced the match started; for matches
produced by `re.finditer(p, s)` this attribute is 0 for every match, as
`finditer` scans the whole string from position 0).
The one concrete pattern the program itself constructs, the catch-all
`(.*)` pattern used for the version file, is modelled exactly
(`dotStarMatches` below reproduces `re.finditer(r"(.*)", s, re.MULTILINE)`).
-/

/-- Lists of characters stand in for Python strings. -/
abbrev Str := List Char

/-- Characters that Python `str.strip()` / `str.isspace()` treat as
whitespace, restricted to the ASCII range used by the tool. -/
def pyIsSpace (c : Char) : Bool :=
  c = ' ' || c = '\t' || c = '\n' || c = '\r' || c = '\x0b' || c = '\x0c'

/-- Python slice `s[a:b]` for `0 ≤ a ≤ b`. -/
def pySlice (s : Str) (a b : Nat) : Str :=
  (s.drop a).take (b - a)

/-- Python `s.startswith(p)`. -/
def py_startswith (s p : Str) : Bool :=
  s.take p.length == p

/-- Python `s.lower()` (character-wise, ASCII letters). -/
def pyLower (s : Str) : Str :=
  s.map Char.toLower

/-- Python `s.split(sep)` for a one-character separator. -/
def pySplitOn (sep : Char) : Str → List Str
  | [] => [[]]
  | c :: rest =>
    if c = sep then [] :: pySplitOn sep rest
    else
      match pySplitOn sep rest with
      | h :: t => (c :: h) :: t
      | [] => [[c]]

/-- Python `s.strip(chars)`: remove the given characters from both ends. -/
def pyStripChars (cs : List Char) (s : Str) : Str :=
  ((s.dropWhile fun c => cs.contains c).reverse.dropWhile fun c => cs.contains c).reverse

/-- A match object produced by `re.finditer`: full-match span `[mstart, mstop)`,
capturing-group-1 span `[gstart, gstop)`, and the `pos` attribute (start of
the scan; 0 for all matches of `re.finditer(p, s)`). -/
structure RMatch where
  mstart : Nat
  mstop : Nat
  gstart : Nat
  gstop : Nat
  pos : Nat
deriving DecidableEq, Repr

/-- Well-formedness of a match over a given text: group 1 participated in the
match and its span sits inside the full-match span. -/
def RMatch.wf (content : Str) (m : RMatch) : Prop :=
  m.mstart ≤ m.gstart ∧ m.gstart ≤ m.gstop ∧ m.gstop ≤ m.mstop ∧ m.mstop ≤ content.length

/-- The inner function `replace_first_group` of `patch_with_regex`
(tinysemver.py lines 376-386): keep the full match's text but replace the
slice of capturing group 1 by the new version string. -/
def replace_first_group (content new_version : Str) (m : RMatch) : Str :=
  let old_string := pySlice content m.mstart m.mstop
  old_string.take (m.gstart - m.mstart) ++ new_version ++ old_string.drop (m.gstop - m.mstart)

/-- Python `re.sub(pattern, replace_first_group, content, 1)`: substitute the
replacement for the full span of the first match only. -/
def sub_first (content new_version : Str) (ms : List RMatch) : Str :=
  match ms with
  | [] => content
  | m :: _ => content.take m.mstart ++ replace_first_group content new_version m ++ content.drop m.mstop

/-- The two ways `patch_with_regex` aborts via a failed assertion. -/
inductive PatchError where
  | groupCount
  | noMatches
deriving DecidableEq, Repr

/-- One entry of the verbose report of `patch_with_regex` (lines 396-404):
the 1-based line number the code computes for a non-empty match
(`old_content.count("\n", 0, match.pos) + 1`) and the match's text.
The re-substituted `new_slice` is console output only and is not modelled. -/
structure PatchReport where
  line : Nat
  oldText : Str
deriving DecidableEq, Repr

/-- Model of `patch_with_regex` (tinysemver.py lines 364-408) on in-memory
text.  `groups` is the number of capturing groups of the compiled pattern
and `ms` the matches `re.finditer` finds in `content`.  The group-count
assertion sits inside the replacement callback, so it fires iff `re.sub`
invokes the callback, i.e. iff at least one match exists; afterwards the
non-empty-match assertion is checked; on success the new content and the
per-match report are returned. -/
def patch_with_regex (groups : Nat) (ms : List RMatch) (content new_version : Str) :
    Except PatchError (Str × List PatchReport) :=
  if ms ≠ [] ∧ groups ≠ 1 then .error .groupCount
  else
    let new_content := sub_first content new_version ms
    let non_empty := ms.filter fun m => !(pySlice content m.mstart m.mstop).all pyIsSpace
    if non_empty = [] then .error .noMatches
    else
      .ok (new_content,
        non_empty.map fun m => ⟨(content.take m.pos).count '\n' + 1, pySlice content m.mstart m.mstop⟩)

/-- The file content after `patch_with_regex` runs: an assertion failure
happens before the `open(file_path, "w")` write, so the file keeps its old
content; on a dry run the write is skipped as well (lines 406-408). -/
def patch_file (groups : Nat) (ms : List RMatch) (content new_version : Str) (dry_run : Bool) : Str :=
  match patch_with_regex groups ms content new_version with
  | .error _ => content
  | .ok (new_content, _) => if dry_run then content else new_content

/-- Length of the maximal newline-free prefix of a text (the part of the
text that `.*` matches at position 0). -/
def firstLineLen (s : Str) : Nat :=
  (s.takeWhile fun c => c ≠ '\n').length

/-- Matches of `re.finditer(r"(.*)", s, re.MULTILINE)` for one line of the
split text at a given offset, followed by the rest: a non-empty line yields
the line match plus a trailing empty match at the end of the line; an empty
line yields a single empty match (the scanner must advance after it). -/
def dotStarOfLines : Nat → List Str → List RMatch
  | _, [] => []
  | o, line :: rest =>
    (if line.length = 0 then [⟨o, o, o, o, 0⟩]
     else [⟨o, o + line.length, o, o + line.length, 0⟩,
           ⟨o + line.length, o + line.length, o + line.length, o + line.length, 0⟩]) ++
    dotStarOfLines (o + line.length + 1) rest

/-- Matches of `re.finditer(r"(.*)", content, re.MULTILINE)`: the per-line
matches over the newline-split text, with group 1 spanning the full match. -/
def dotStarMatches (content : Str) : List RMatch :=
  dotStarOfLines 0 (pySplitOn '\n' content)

/-- A commit: short hash and message first line (tinysemver.py line 60). -/
structure Commit where
  hash : Str
  message : Str
deriving DecidableEq, Repr

/-- Model of `commit_starts_with_verb` (tinysemver.py lines 185-190): the
lowercased message must start with the verb, and the character right after
the prefix (read from the original message) must be absent, whitespace, or
a colon. -/
def commit_starts_with_verb (commit verb : Str) : Bool :=
  if py_startswith (pyLower commit) verb then
    if commit.length = verb.length then true
    else
      match commit.get? verb.length with
      | some c => pyIsSpace c || c == ':'
      | none => false
  else false

/-- The three ways verb lists reach `normalize_verbs`: a comma-separated
string, an absent value, or a pre-split list. -/
inductive VerbsArg where
  | ofString (s : Str)
  | unset
  | ofList (l : List Str)

/-- Model of `normalize_verbs` (tinysemver.py lines 193-200): a string is
split on commas and each piece stripped of quote characters; an absent
value yields the defaults; a list is returned unchanged. -/
def normalize_verbs (verbs : VerbsArg) (defaults : List Str) : List Str :=
  match verbs with
  | .ofString s => (pySplitOn ',' s).map fun v => pyStripChars ['"', '\''] v
  | .unset => defaults
  | .ofList l => l

/-- Model of `group_commits` (tinysemver.py lines 203-222): a commit joins a
bucket when any verb of that bucket's list matches its message; buckets are
not exclusive and preserve input order. -/
def group_commits (commits : List Commit) (major_verbs minor_verbs patch_verbs : List Str) :
    List Commit × List Commit × List Commit :=
  (commits.filter fun c => major_verbs.any fun v => commit_starts_with_verb c.message v,
   commits.filter fun c => minor_verbs.any fun v => commit_starts_with_verb c.message v,
   commits.filter fun c => patch_verbs.any fun v => commit_starts_with_verb c.message v)

/-- Semantic version triple (major, minor, patch). -/
abbrev SemVer := Nat × Nat × Nat

/-- The three bump severities. -/
inductive BumpType where
  | major
  | minor
  | patch
deriving DecidableEq, Repr

/-- Model of `bump_version` (tinysemver.py lines 243-251). -/
def bump_version (version : SemVer) (bump_type : BumpType) : SemVer :=
  match version, bump_type with
  | (major, _, _), .major => (major + 1, 0, 0)
  | (major, minor, _), .minor => (major, minor + 1, 0)
  | (major, minor, patch), .patch => (major, minor, patch + 1)

/-- Resolution of the bump type from the classified buckets (tinysemver.py
lines 636-645): the assertion that some bucket is non-empty fires first
(`none`), then major wins over minor, which wins over patch. -/
def resolve_bump_type (major_commits minor_commits patch_commits : List Commit) : Option BumpType :=
  if major_commits.length + minor_commits.length + patch_commits.length = 0 then none
  else if major_commits.length ≠ 0 then some .major
  else if minor_commits.length ≠ 0 then some .minor
  else some .patch

/-- One changelog bullet, Python `f"- {c.message} ({c.hash})"`. -/
def commit_bullet (c : Commit) : Str :=
  "- ".toList ++ c.message ++ " (".toList ++ c.hash ++ ")".toList

/-- Model of `convert_commits_to_message` (tinysemver.py lines 225-240). -/
def convert_commits_to_message (major_commits minor_commits patch_commits : List Commit) : Str :=
  (if major_commits.length ≠ 0 then
    "\n### Major\n\n".toList ++
      List.intercalate "\n".toList (major_commits.map commit_bullet) ++ "\n".toList
   else []) ++
  (if minor_commits.length ≠ 0 then
    "\n### Minor\n\n".toList ++
      List.intercalate "\n".toList (minor_commits.map commit_bullet) ++ "\n".toList
   else []) ++
  (if patch_commits.length ≠ 0 then
    "\n### Patch\n\n".toList ++
      List.intercalate "\n".toList (patch_commits.map commit_bullet) ++ "\n".toList
   else [])

/-- Python `f"{v[0]}.{v[1]}.{v[2]}"`. -/
def semver_string (v : SemVer) : Str :=
  (Nat.repr v.1).toList ++ ".".toList ++ (Nat.repr v.2.1).toList ++ ".".toList ++ (Nat.repr v.2.2).toList

/-- The distinguishable ways the `bump` sequence terminates early:
`NoNewCommitsError` (line 628), the classification-exhaustion assertion
(lines 636-638), or an assertion inside a file patch. -/
inductive BumpError where
  | noNewCommits
  | noCommitCategories
  | filePatch (e : PatchError)
deriving DecidableEq, Repr

/-- Contents of the two files the modelled part of `bump` may write
(`none` when the corresponding path is not configured). -/
structure RepoState where
  version_file : Option Str
  changelog_file : Option Str
deriving DecidableEq, Repr

/-- The changelog append of `bump` (tinysemver.py lines 654-668): only on a
real run, a dated heading plus the classified-commit summary is appended to
the configured changelog file. -/
def append_changelog (st : RepoState) (g : List Commit × List Commit × List Commit)
    (vstr : Str) (dry_run : Bool) (date_str : Str) : RepoState :=
  match st.changelog_file with
  | none => st
  | some cl =>
    if dry_run then st
    else
      { st with changelog_file := some (cl ++ "\n## ".toList ++ date_str ++ ": v".toList ++
          vstr ++ "\n".toList ++ convert_commits_to_message g.1 g.2.1 g.2.2) }

/-- Model of the core sequencing of `bump` (tinysemver.py lines 619-668):
empty-commit-list check, classification, bump-type resolution, version-file
patch with the catch-all `(.*)` pattern, changelog append.  The current
version stands in for the parsed last tag, `date_str` for the formatted
current date; the four update-version-in target lists are not configured
and the external git/LLM calls are out of scope.  The final repository
state is returned alongside the outcome; an early error leaves the state
untouched. -/
def bump_model (current_version : SemVer) (commits : List Commit)
    (major_verbs minor_verbs patch_verbs : List Str)
    (state : RepoState) (dry_run : Bool) (date_str : Str) :
    Except BumpError SemVer × RepoState :=
  if commits.length = 0 then (.error .noNewCommits, state)
  else
    let g := group_commits commits major_verbs minor_verbs patch_verbs
    match resolve_bump_type g.1 g.2.1 g.2.2 with
    | none => (.error .noCommitCategories, state)
    | some bump_type =>
      let new_version := bump_version current_version bump_type
      let vstr := semver_string new_version
      match state.version_file with
      | none =>
        (.ok new_version, append_changelog state g vstr dry_run date_str)
      | some content =>
        match patch_with_regex 1 (dotStarMatches content) content vstr with
        | .error e => (.error (.filePatch e), state)
        | .ok (new_content, _) =>
          let st1 : RepoState :=
            { state with version_file := some (if dry_run then content else new_content) }
          (.ok new_version, append_changelog st1 g vstr dry_run date_str)

/-- Model of the exit-code policy of `main` (tinysemver.py lines 934-942):
`NoNewCommitsError` exits 0, assertion errors exit 1, any other failure
exits 1, and a completed run exits 0. -/
def main_exit (r : Except BumpError SemVer) : Nat :=
  match r with
  | .error .noNewCommits => 0
  | .error .noCommitCategories => 1
  | .error (.filePatch _) => 1
  | .ok _ => 0

/-- Restatement of the spec's VerbMatcher contract in its own words
(spec section 4.1), for comparison with `commit_starts_with_verb`: the
message's prefix equals the verb case-insensitively, and the character
immediately following that prefix is absent, whitespace, or a colon. -/
def verb_match_spec (commit verb : Str) : Bool :=
  ((commit.take verb.length).map Char.toLower == verb.map Char.toLower) &&
  (commit.length == verb.length ||
    (match commit.get? verb.length with
     | some c => pyIsSpace c || c == ':'
     | none => false))

theorem sub_first_eq (content new_version : Str) (m : RMatch) (rest : List RMatch)
    (h1 : m.mstart ≤ m.gstart) (h2 : m.gstart ≤ m.gstop) (h3 : m.gstop ≤ m.mstop) :
    sub_first content new_version (m :: rest) =
      content.take m.gstart ++ new_version ++ content.drop m.gstop := by
  have hgs : min (m.gstart - m.mstart) (m.mstop - m.mstart) = m.gstart - m.mstart := by omega
  have h4 : m.mstart + (m.gstart - m.mstart) = m.gstart := by omega
  have h5 : m.mstart + (m.gstop - m.mstart) = m.gstop := by omega
  have h6 : m.mstop - m.mstart - (m.gstop - m.mstart) = m.mstop - m.gstop := by omega
  have h7 : m.gstop + (m.mstop - m.gstop) = m.mstop := by omega
  have hA : content.take m.mstart ++ (content.drop m.mstart).take (m.gstart - m.mstart) =
      content.take m.gstart := by
    rw [← List.take_add, h4]
  have hB : (content.drop m.gstop).take (m.mstop - m.gstop) ++ content.drop m.mstop =
      content.drop m.gstop := by
    have hd : content.drop m.mstop = (content.drop m.gstop).drop (m.mstop - m.gstop) := by
      rw [List.drop_drop, h7]
    rw [hd]
    exact List.take_append_drop _ _
  simp only [sub_first, replace_first_group, pySlice]
  rw [List.take_take, hgs, List.drop_take, List.drop_drop, h5, h6]
  conv_rhs => rw [← hA, ← hB]
  simp only [List.append_assoc]

theorem patch_ok_eq_sub_first (ms : List RMatch) (content new_version : Str)
    (r : Str × List PatchReport)
    (hok : patch_with_regex 1 ms content new_version = .ok r) :
    r.1 = sub_first content new_version ms := by
  simp only [patch_with_regex, ne_eq, not_true_eq_false, and_false, if_false] at hok
  split at hok
  · exact absurd hok (by simp)
  · rw [Except.ok.injEq] at hok
    rw [← hok]

/-- Claim C1: for a pattern with exactly one capturing group, `patch_with_regex`
substitutes the replacement for exactly the captured-group span of the first
match in document order; every character outside that span, including the
prefix of the first full match and all later matches, is kept verbatim. -/
theorem patch_substitutes_only_first_group (content new_version : Str) (m : RMatch)
    (rest : List RMatch) (r : Str × List PatchReport)
    (h1 : m.mstart ≤ m.gstart) (h2 : m.gstart ≤ m.gstop) (h3 : m.gstop ≤ m.mstop)
    (hok : patch_with_regex 1 (m :: rest) content new_version = .ok r) :
    r.1 = content.take m.gstart ++ new_version ++ content.drop m.gstop := by
  rw [patch_ok_eq_sub_first (m :: rest) content new_version r hok]
  exact sub_first_eq content new_version m rest h1 h2 h3

theorem patch_substitutes_only_first_group_witness :
    ((("version: 9.9.9".toList : Str), ([⟨1, "version: 1.2.3".toList⟩] : List PatchReport)).1 =
      "version: 1.2.3".toList.take 9 ++ "9.9.9".toList ++ "version: 1.2.3".toList.drop 14) :=
  patch_substitutes_only_first_group "version: 1.2.3".toList "9.9.9".toList ⟨0, 14, 9, 14, 0⟩ []
    ("version: 9.9.9".toList, [⟨1, "version: 1.2.3".toList⟩])
    (by decide) (by decide) (by decide) (by rfl)

/-- Claim C3: `bump_version` increments exactly one component and resets the
components to its right: major gives (M+1, 0, 0), minor gives (M, m+1, 0),
patch gives (M, m, p+1). -/
theorem bump_version_components (M m p : Nat) :
    bump_version (M, m, p) BumpType.major = (M + 1, 0, 0) ∧
    bump_version (M, m, p) BumpType.minor = (M, m + 1, 0) ∧
    bump_version (M, m, p) BumpType.patch = (M, m, p + 1) :=
  ⟨rfl, rfl, rfl⟩

/-- Claim C4: for a one-capturing-group pattern, `patch_with_regex` fails with the
"no matches found" error exactly when every `finditer` match of the pattern
in the original content (possibly none) has a full matched text that is
blank after trimming, and on that error the target file is never written. -/
theorem no_matches_error_iff_all_blank (ms : List RMatch) (content new_version : Str)
    (dry_run : Bool) :
    (patch_with_regex 1 ms content new_version = .error .noMatches ↔
      ∀ m ∈ ms, (pySlice content m.mstart m.mstop).all pyIsSpace = true) ∧
    (patch_with_regex 1 ms content new_version = .error .noMatches →
      patch_file 1 ms content new_version dry_run = content) := by
  constructor
  · simp only [patch_with_regex, ne_eq, not_true_eq_false, and_false, if_false]
    split
    · rename_i hf
      rw [List.filter_eq_nil_iff] at hf
      refine iff_of_true rfl ?_
      intro m hm
      simpa using hf m hm
    · rename_i hf
      refine iff_of_false (by simp) ?_
      intro hall
      exact hf (List.filter_eq_nil_iff.mpr fun m hm => by simp [hall m hm])
  · intro herr
    simp only [patch_file, herr]

theorem no_matches_error_iff_all_blank_witness :
    patch_file 1 [⟨0, 2, 0, 2, 0⟩] "  ".toList "9".toList false = "  ".toList :=
  (no_matches_error_iff_all_blank [⟨0, 2, 0, 2, 0⟩] "  ".toList "9".toList false).2 (by rfl)

/-- Claim C9: the exactly-one-group assertion lives inside the substitution
callback, so a wrong group count with zero matches still produces the
"no matches found" error; with at least one match the group-count error
fires instead, before the no-matches check and before any file write. -/
theorem group_count_error_needs_match (groups : Nat) (ms : List RMatch)
    (content new_version : Str) (dry_run : Bool) :
    patch_with_regex groups [] content new_version = .error .noMatches ∧
    (ms ≠ [] → groups ≠ 1 →
      patch_with_regex groups ms content new_version = .error .groupCount ∧
      patch_file groups ms content new_version dry_run = content) := by
  constructor
  · simp [patch_with_regex]
  · intro hne hg
    have herr : patch_with_regex groups ms content new_version = .error .groupCount := by
      rw [patch_with_regex, if_pos ⟨hne, hg⟩]
    exact ⟨herr, by simp only [patch_file, herr]⟩

theorem group_count_error_needs_match_witness :
    patch_with_regex 2 [⟨0, 1, 0, 1, 0⟩] "a".toList "9".toList = .error .groupCount ∧
    patch_file 2 [⟨0, 1, 0, 1, 0⟩] "a".toList "9".toList false = "a".toList :=
  (group_count_error_needs_match 2 [⟨0, 1, 0, 1, 0⟩] "a".toList "9".toList false).2
    (by decide) (by decide)

/-- Claim C5 (code bug): the verbose report computes each match's line number as
`old_content.count("\n", 0, match.pos) + 1`, and `match.pos` is the scan
start (0 for every `finditer` match), not the match's start offset.  On
`"a\nb"` with the one-group catch-all pattern the non-empty matches start
at offsets 0 and 2; the second starts on line 2, yet both are reported as
line 1. -/
theorem reported_line_ignores_match_start :
    patch_with_regex 1 (dotStarMatches "a\nb".toList) "a\nb".toList "9".toList =
      .ok ("9\nb".toList, [⟨1, "a".toList⟩, ⟨1, "b".toList⟩]) ∧
    ((dotStarMatches "a\nb".toList).filter fun m =>
      !(pySlice "a\nb".toList m.mstart m.mstop).all pyIsSpace) =
        [⟨0, 1, 0, 1, 0⟩, ⟨2, 3, 2, 3, 0⟩] ∧
    ("a\nb".toList.take 2).count '\n' + 1 = 2 := by
  exact ⟨rfl, rfl, rfl⟩

theorem pySplitOn_newline_head (content : Str) :
    ∃ t, pySplitOn '\n' content = (content.takeWhile fun c => c ≠ '\n') :: t := by
  induction content with
  | nil => exact ⟨[], rfl⟩
  | cons c rest ih =>
    obtain ⟨t, ht⟩ := ih
    by_cases hc : c = '\n'
    · refine ⟨pySplitOn '\n' rest, ?_⟩
      subst hc
      simp [pySplitOn, List.takeWhile_cons]
    · refine ⟨t, ?_⟩
      simp only [pySplitOn, if_neg hc, ht, List.takeWhile_cons]
      simp [hc]

theorem dotStarMatches_head (content : Str) :
    ∃ t, dotStarMatches content =
      ({ mstart := 0, mstop := firstLineLen content, gstart := 0,
         gstop := firstLineLen content, pos := 0 } : RMatch) :: t := by
  obtain ⟨t, ht⟩ := pySplitOn_newline_head content
  rw [dotStarMatches, ht, dotStarOfLines]
  have hfl : firstLineLen content = (content.takeWhile fun c => c ≠ '\n').length := rfl
  by_cases h0 : (content.takeWhile fun c => c ≠ '\n').length = 0
  · refine ⟨dotStarOfLines (0 + (content.takeWhile fun c => c ≠ '\n').length + 1) t, ?_⟩
    rw [if_pos h0, hfl, h0]
    rfl
  · refine ⟨⟨0 + (content.takeWhile fun c => c ≠ '\n').length,
      0 + (content.takeWhile fun c => c ≠ '\n').length,
      0 + (content.takeWhile fun c => c ≠ '\n').length,
      0 + (content.takeWhile fun c => c ≠ '\n').length, 0⟩ ::
        dotStarOfLines (0 + (content.takeWhile fun c => c ≠ '\n').length + 1) t, ?_⟩
    rw [if_neg h0, hfl]
    simp only [Nat.zero_add]
    rfl

/-- Claim C6 (amended): with a version-file path configured, the bump patches the
file with the catch-all `(.*)` one-group pattern, which replaces only the
first line of the file (its maximal newline-free prefix) with the new
version string; everything from the first newline onward is preserved, so
only a single-line version file ends up containing exactly the version
string. -/
theorem version_file_patch_replaces_first_line (content new_version : Str)
    (r : Str × List PatchReport)
    (hok : patch_with_regex 1 (dotStarMatches content) content new_version = .ok r) :
    r.1 = new_version ++ content.drop (firstLineLen content) := by
  obtain ⟨t, ht⟩ := dotStarMatches_head content
  rw [ht] at hok
  rw [patch_ok_eq_sub_first _ content new_version r hok]
  rw [sub_first_eq content new_version _ t (by simp) (by simp) (by simp)]
  simp

theorem version_file_patch_replaces_first_line_witness :
    ((("1.3.0\nleftover".toList : Str),
        ([⟨1, "1.2.3".toList⟩, ⟨1, "leftover".toList⟩] : List PatchReport)).1 =
      "1.3.0".toList ++ "1.2.3\nleftover".toList.drop (firstLineLen "1.2.3\nleftover".toList)) :=
  version_file_patch_replaces_first_line "1.2.3\nleftover".toList "1.3.0".toList
    ("1.3.0\nleftover".toList, [⟨1, "1.2.3".toList⟩, ⟨1, "leftover".toList⟩]) (by rfl)

theorem version_file_not_wholly_replaced :
    (bump_model (1, 2, 3) [⟨"abc".toList, "Add: retry".toList⟩]
        ["major".toList, "breaking".toList, "break".toList]
        ["minor".toList, "feature".toList, "add".toList, "new".toList]
        ["patch".toList, "fix".toList, "bug".toList, "improve".toList, "docs".toList, "make".toList]
        ⟨some ("1.2.3\nleftover".toList), none⟩ false []).2.version_file =
      some ("1.3.0\nleftover".toList) ∧
    "1.3.0\nleftover".toList ≠ "1.3.0".toList ∧
    (("1.3.0\nleftover".toList.drop "1.3.0".toList.length).all fun ch => ch == '\n') = false := by
  exact ⟨rfl, by decide, rfl⟩

/-- Claim C8: an empty commit list makes `bump` raise the distinguishable
`NoNewCommitsError` before any mutation (the repository state is returned
unchanged), and `main` maps this outcome to exit code 0 while every other
error constructor exits 1. -/
theorem no_new_commits_clean_exit (current : SemVer) (mv nv pv : List Str)
    (st : RepoState) (dry : Bool) (d : Str) (commits : List Commit)
    (h : commits = []) :
    bump_model current commits mv nv pv st dry d = (.error .noNewCommits, st) ∧
    main_exit (bump_model current commits mv nv pv st dry d).1 = 0 ∧
    main_exit (.error .noNewCommits) = 0 ∧
    (∀ e : BumpError, e ≠ .noNewCommits → main_exit (.error e) = 1) := by
  subst h
  refine ⟨rfl, rfl, rfl, ?_⟩
  intro e he
  cases e with
  | noNewCommits => exact absurd rfl he
  | noCommitCategories => rfl
  | filePatch p => rfl

theorem no_new_commits_clean_exit_witness :
    bump_model (1, 2, 3) [] [] [] [] ⟨none, none⟩ true [] =
      (.error .noNewCommits, (⟨none, none⟩ : RepoState)) :=
  (no_new_commits_clean_exit (1, 2, 3) [] [] [] ⟨none, none⟩ true [] [] rfl).1

/-- Claim C2: with commits present, the resolved bump type is major when the major
bucket is non-empty, else minor when the minor bucket is non-empty, else
patch; when all three buckets are empty the run fails with the fatal
classification-exhaustion assertion (exit code 1), not a default bump. -/
theorem bump_type_precedence (commits : List Commit) (mv nv pv : List Str)
    (current : SemVer) (st : RepoState) (dry : Bool) (d : Str)
    (M N P : List Commit)
    (hg : group_commits commits mv nv pv = (M, N, P))
    (hne : commits ≠ []) :
    (M ≠ [] → resolve_bump_type M N P = some BumpType.major) ∧
    (M = [] → N ≠ [] → resolve_bump_type M N P = some BumpType.minor) ∧
    (M = [] → N = [] → P ≠ [] → resolve_bump_type M N P = some BumpType.patch) ∧
    (M = [] → N = [] → P = [] →
      bump_model current commits mv nv pv st dry d = (.error .noCommitCategories, st) ∧
      main_exit (bump_model current commits mv nv pv st dry d).1 = 1) := by
  have hlen : ∀ l : List Commit, l ≠ [] → l.length ≠ 0 := by
    intro l hl h0
    exact hl (List.length_eq_zero.mp h0)
  refine ⟨?_, ?_, ?_, ?_⟩
  · intro hM
    have hM0 : M.length ≠ 0 := hlen M hM
    unfold resolve_bump_type
    split_ifs with h1
    · omega
    · rfl
  · intro hM hN
    subst hM
    have hN0 : N.length ≠ 0 := hlen N hN
    unfold resolve_bump_type
    split_ifs with h1 h2
    · omega
    · simp at h2
    · rfl
  · intro hM hN hP
    subst hM; subst hN
    have hP0 : P.length ≠ 0 := hlen P hP
    unfold resolve_bump_type
    split_ifs with h1 h2
    · omega
    · simp at h2
    · rfl
  · intro hM hN hP
    subst hM; subst hN; subst hP
    have hres : bump_model current commits mv nv pv st dry d =
        (.error .noCommitCategories, st) := by
      rw [bump_model, if_neg (hlen commits hne), hg]
      rfl
    refine ⟨hres, ?_⟩
    rw [hres]
    rfl

theorem bump_type_precedence_witness :
    resolve_bump_type [⟨"h1".toList, "Major: x".toList⟩] [⟨"h2".toList, "Minor: y".toList⟩] [] =
      some BumpType.major :=
  (bump_type_precedence
      [⟨"h1".toList, "Major: x".toList⟩, ⟨"h2".toList, "Minor: y".toList⟩]
      ["major".toList, "breaking".toList, "break".toList]
      ["minor".toList, "feature".toList, "add".toList, "new".toList]
      ["patch".toList, "fix".toList, "bug".toList, "improve".toList, "docs".toList, "make".toList]
      (1, 2, 3) ⟨none, none⟩ false []
      [⟨"h1".toList, "Major: x".toList⟩] [⟨"h2".toList, "Minor: y".toList⟩] []
      (by rfl) (by decide)).1 (by decide)

/-- Claim C7: for a lowercase verb, `commit_starts_with_verb` agrees exactly with
the spec's VerbMatcher contract: the message's prefix equals the verb
case-insensitively and the character immediately after the prefix is
absent, whitespace, or a colon. -/
theorem verb_match_model_eq_spec (commit verb : Str)
    (hl : verb.map Char.toLower = verb) :
    commit_starts_with_verb commit verb = verb_match_spec commit verb := by
  rw [commit_starts_with_verb, verb_match_spec, py_startswith, pyLower, hl, ← List.map_take]
  by_cases hb : ((commit.take verb.length).map Char.toLower == verb) = true
  · rw [if_pos hb, hb]
    by_cases hL : commit.length = verb.length
    · rw [if_pos hL]
      simp [hL]
    · rw [if_neg hL]
      have : (commit.length == verb.length) = false := by
        simpa using hL
      rw [this]
      simp
  · rw [if_neg hb]
    have : ((commit.take verb.length).map Char.toLower == verb) = false := by
      simpa using hb
    rw [this]
    simp

theorem verb_match_model_eq_spec_witness :
    commit_starts_with_verb "Fix: bug".toList "fix".toList =
      verb_match_spec "Fix: bug".toList "fix".toList ∧
    commit_starts_with_verb "Fix: bug".toList "fix".toList = true ∧
    commit_starts_with_verb "fixture issue".toList "fix".toList = false ∧
    commit_starts_with_verb "fix".toList "fix".toList = true :=
  ⟨verb_match_model_eq_spec "Fix: bug".toList "fix".toList (by rfl), by rfl, by rfl, by rfl⟩

theorem uint32_le_iff_toNat_le (a b : UInt32) : a ≤ b ↔ a.toNat ≤ b.toNat := by
  rw [UInt32.le_def, BitVec.le_def]
  exact Iff.rfl

theorem char_isUpper_iff (c : Char) : c.isUpper = true ↔ 65 ≤ c.toNat ∧ c.toNat ≤ 90 := by
  rw [Char.isUpper]
  rw [Bool.and_eq_true, decide_eq_true_eq, decide_eq_true_eq, ge_iff_le,
    uint32_le_iff_toNat_le, uint32_le_iff_toNat_le]
  exact Iff.rfl

theorem toLower_isUpper_false (c : Char) : (Char.toLower c).isUpper = false := by
  simp only [Char.toLower]
  split
  · rename_i h
    rw [Bool.eq_false_iff]
    intro hup
    rw [char_isUpper_iff] at hup
    have hvalid : (c.toNat + 32).isValidChar := Or.inl (by omega)
    have htn : (Char.ofNat (c.toNat + 32)).toNat = c.toNat + 32 := by
      rw [Char.ofNat, dif_pos hvalid]
      rfl
    rw [htn] at hup
    omega
  · rename_i h
    rw [Bool.eq_false_iff]
    intro hup
    rw [char_isUpper_iff] at hup
    exact h ⟨hup.1, hup.2⟩

/-- Claim C10: verb matching lowercases only the commit message, so a verb that
contains an uppercase letter can never match any message; and a pre-split
verb list passes through `normalize_verbs` unchanged, with no lowercasing. -/
theorem uppercase_verb_never_matches (verb : Str)
    (h : ∃ c ∈ verb, c.isUpper = true) (commit : Str) (l defaults : List Str) :
    commit_starts_with_verb commit verb = false ∧
    normalize_verbs (.ofList l) defaults = l := by
  refine ⟨?_, rfl⟩
  obtain ⟨c, hc, hup⟩ := h
  have hfalse : ¬ (py_startswith (pyLower commit) verb = true) := by
    intro hsw
    rw [py_startswith] at hsw
    have heq : (pyLower commit).take verb.length = verb := by
      exact beq_iff_eq.mp hsw
    have hmem : c ∈ (pyLower commit).take verb.length := by
      rw [heq]
      exact hc
    have hmem2 : c ∈ pyLower commit := List.mem_of_mem_take hmem
    rw [pyLower] at hmem2
    obtain ⟨x, _, hx⟩ := List.mem_map.mp hmem2
    rw [← hx, toLower_isUpper_false] at hup
    exact Bool.false_ne_true hup
  rw [commit_starts_with_verb, if_neg hfalse]

theorem uppercase_verb_never_matches_witness :
    commit_starts_with_verb "Fix: bug".toList "Fix".toList = false ∧
    normalize_verbs (VerbsArg.ofList [['f']]) [] = [['f']] :=
  uppercase_verb_never_matches "Fix".toList (by decide) "Fix: bug".toList [['f']] []
